import Mathlib

/-!
Shallow embedding of the opentdb trivia scraper (`scrape.py`) and analyzer
(`analyze.py`).

Modelling conventions:
- HTML-entity decoding (`html.unescape`, used by `_decode_text`) is an
  orthogonal string-to-string subroutine; it is passed in as a parameter
  `decode : String → String`, so every theorem holds for the actual decoder.
- `random.shuffle` is passed in as a parameter `shuffle : List String → List String`
  together with the hypothesis that it permutes its input, which is the only
  property of `random.shuffle` the code relies on.
- `_create_question_hash` computes `md5(f"{question}:{correct_answer}".lower().strip())`.
  The md5 digest is modelled by the hashed content string itself (the
  lower-cased, trimmed `question:correct_answer` string): md5 is treated as
  injective, so membership in the seen-set is preserved exactly.
- The Python `set` of seen hashes is a `Finset String`; the CSV file is the
  list of its records; network responses are oracle functions from the
  request index to the data the server would return.
-/

namespace OpenTDB

/-- One raw question object as returned by the upstream API
(fields of the objects in `data['results']`). -/
structure RawQuestion where
  category : String
  question : String
  correct_answer : String
  incorrect_answers : List String
  difficulty : String
  qtype : String
deriving DecidableEq, Repr

/-- The `Question` dataclass of `scrape.py`. -/
structure Question where
  category : String
  question : String
  options : List String
  correct_answer : String
  difficulty : String
  question_type : String
  question_hash : String
deriving DecidableEq, Repr

/-- The mutable scraper state: `self.seen_hashes`, `self.questions_written`,
and the list of records appended to the CSV file during this run. -/
structure ScrapeState where
  seen_hashes : Finset String
  questions_written : Nat
  out : List Question
deriving DecidableEq

/-- Lower-case a string character-wise (Python `str.lower`). -/
def lowerString (s : String) : String := ⟨s.data.map Char.toLower⟩

/-- Strip leading and trailing whitespace (Python `str.strip`). -/
def trimString (s : String) : String :=
  ⟨((s.data.dropWhile Char.isWhitespace).reverse.dropWhile Char.isWhitespace).reverse⟩

/-- Model of `_create_question_hash`: `f"{question}:{correct_answer}".lower().strip()`,
with the md5 digest modelled by the content string itself. -/
def questionHash (question correct_answer : String) : String :=
  trimString (lowerString (question ++ ":" ++ correct_answer))

/-- Recompute the dedup hash of a persisted record from its stored
`question` and `correct_answer` fields, as `_load_existing_questions` does. -/
def recomputeHash (r : Question) : String :=
  questionHash r.question r.correct_answer

/-- The scraper state right after `__init__` and before any file is loaded:
empty seen-set, zero written. -/
def initialState : ScrapeState := ⟨∅, 0, []⟩

/-- Model of `_load_existing_questions`: if the file is absent (`none`) the state is
left fresh; otherwise every row's hash is recomputed from its
`question`/`correct_answer` fields and added to the seen-set, and
`questions_written` is incremented once per row. -/
def loadExisting (file : Option (List Question)) : ScrapeState :=
  match file with
  | none => initialState
  | some rows => ⟨(rows.map recomputeHash).toFinset, rows.length, []⟩

/-- Model of `_process_question` (with `write_immediately=True`): decode the fields,
build and shuffle the options, hash the decoded question and correct answer,
drop the question if the hash was already seen, otherwise register the hash
and append the record. Returns the accepted record (or `none`) and the new
state. -/
def processQuestion (decode : String → String) (shuffle : List String → List String)
    (st : ScrapeState) (raw : RawQuestion) : Option Question × ScrapeState :=
  let category := decode raw.category
  let question := decode raw.question
  let correct_answer := decode raw.correct_answer
  let incorrect_answers := raw.incorrect_answers.map decode
  let options := shuffle (correct_answer :: incorrect_answers)
  let question_hash := questionHash question correct_answer
  if question_hash ∈ st.seen_hashes then
    (none, st)
  else
    let q : Question :=
      ⟨category, question, options, correct_answer, raw.difficulty, raw.qtype, question_hash⟩
    (some q, ⟨insert question_hash st.seen_hashes, st.questions_written + 1, st.out ++ [q]⟩)

/-- The per-batch loop inside `fetch_questions`: process each raw question in
order, collecting the newly accepted records. -/
def processBatch (decode : String → String) (shuffle : List String → List String)
    (st : ScrapeState) : List RawQuestion → List Question × ScrapeState
  | [] => ([], st)
  | raw :: rest =>
    match processQuestion decode shuffle st raw with
    | (some q, st') =>
      let r := processBatch decode shuffle st' rest
      (q :: r.1, r.2)
    | (none, st') => processBatch decode shuffle st' rest

/-- Convenience: the state after processing a whole sequence of raw questions. -/
def processRaws (decode : String → String) (shuffle : List String → List String)
    (st : ScrapeState) (raws : List RawQuestion) : ScrapeState :=
  (processBatch decode shuffle st raws).2

/-- Model of `fetch_questions`: if the request yields no data or the payload has no
`results`, return no questions and leave the state unchanged; otherwise
process the batch. -/
def fetchQuestions (decode : String → String) (shuffle : List String → List String)
    (st : ScrapeState) (resp : Option (List RawQuestion)) : List Question × ScrapeState :=
  match resp with
  | none => ([], st)
  | some rs => processBatch decode shuffle st rs

/-- The result of a full `scrape` run: its return value
(`new_questions`), the number of question-batch requests issued by the loop,
the number of session-token acquisitions, and the final state. -/
structure ScrapeResult where
  newQuestions : Nat
  apiRequests : Nat
  tokenRequests : Nat
  final : ScrapeState
deriving DecidableEq

/-- The `while` loop of `scrape`, with explicit fuel (`none` means the fuel
ran out before the loop finished; the real loop has no such bound).
`resps i` is the batch the server returns for the i-th question request
(`none` modelling a request that yielded no data or no `results` key).
Returns the final state and the number of question requests made.
The condition `r.1.length < amount ∧ r.1.length = 0` mirrors the nested
`if len(questions) < amount: ... if len(questions) == 0: break`. -/
def scrapeLoop (decode : String → String) (shuffle : List String → List String)
    (resps : Nat → Option (List RawQuestion)) (target qpr : Nat) :
    Nat → Nat → ScrapeState → Option (ScrapeState × Nat)
  | 0, _, _ => none
  | fuel + 1, i, st =>
    if target ≤ st.questions_written then some (st, 0)
    else
      let remaining := target - st.questions_written
      let amount := min (min qpr remaining) 50
      let r := fetchQuestions decode shuffle st (resps i)
      if r.1.length < amount ∧ r.1.length = 0 then some (r.2, 1)
      else
        match scrapeLoop decode shuffle resps target qpr fuel (i + 1) r.2 with
        | none => none
        | some (stf, reqs) => some (stf, reqs + 1)

/-- Model of `scrape(total_questions, questions_per_request)`: if the written-count
already meets the target, return immediately with zero requests of any kind;
otherwise acquire a session token (one token request) and run the fetch loop. -/
def scrape (decode : String → String) (shuffle : List String → List String)
    (resps : Nat → Option (List RawQuestion)) (target qpr fuel : Nat)
    (st : ScrapeState) : Option ScrapeResult :=
  if target ≤ st.questions_written then some ⟨0, 0, 0, st⟩
  else
    match scrapeLoop decode shuffle resps target qpr fuel 0 st with
    | none => none
    | some (stf, reqs) =>
      some ⟨stf.questions_written - st.questions_written, reqs, 1, stf⟩

/-! ### Request layer (`_make_request`) -/

/-- A decoded API payload: the structured `response_code` (absent when the
JSON object carries no `response_code` key) and the `results` list (absent
when the object carries no `results` key). -/
structure ApiData where
  response_code : Option Int
  results : Option (List RawQuestion)
deriving DecidableEq, Repr

/-- What one HTTP attempt inside `_make_request` produces: a transport
failure (`requests.exceptions.RequestException`), an undecodable JSON body
(`ValueError` from `response.json()`), or a decoded payload. -/
inductive AttemptOutcome where
  | transportError
  | malformed
  | payload (data : ApiData)
deriving DecidableEq

/-- A sleep performed by `_make_request`: the exponential backoff
`time.sleep(2 ** attempt)` after a transport failure, or the
`time.sleep(self.request_delay * 2)` pause after a rate-limit code. -/
inductive SleepEvent where
  | backoff (secs : Nat)
  | rateLimitWait
deriving DecidableEq, Repr

/-- What one `_make_request` call returns and does: the returned data
(`none` for every early `return None` and for retry exhaustion), the number
of HTTP attempts consumed, and the sleeps performed, in order. -/
structure RequestResult where
  result : Option ApiData
  attemptsUsed : Nat
  sleeps : List SleepEvent
deriving DecidableEq, Repr

/-- The `for attempt in range(max_retries)` loop of `_make_request`,
recursing on the remaining iteration count `r` (so the current attempt index
is `maxRetries - r`). `resp` maps the attempt index to that attempt's
outcome. Codes 3 and 4 also re-acquire/reset the session token before
retrying; that nested call only touches the token state, which this model
does not track. -/
def makeRequestGo (resp : Nat → AttemptOutcome) (maxRetries : Nat) :
    Nat → RequestResult
  | 0 => ⟨none, 0, []⟩
  | r + 1 =>
    let attempt := maxRetries - (r + 1)
    match resp attempt with
    | .transportError =>
      let rest := makeRequestGo resp maxRetries r
      let sl := if attempt < maxRetries - 1 then [SleepEvent.backoff (2 ^ attempt)] else []
      ⟨rest.result, rest.attemptsUsed + 1, sl ++ rest.sleeps⟩
    | .malformed => ⟨none, 1, []⟩
    | .payload d =>
      match d.response_code with
      | none => ⟨some d, 1, []⟩
      | some c =>
        if c = 0 then ⟨some d, 1, []⟩
        else if c = 1 then ⟨none, 1, []⟩
        else if c = 2 then ⟨none, 1, []⟩
        else if c = 3 then
          let rest := makeRequestGo resp maxRetries r
          ⟨rest.result, rest.attemptsUsed + 1, rest.sleeps⟩
        else if c = 4 then
          let rest := makeRequestGo resp maxRetries r
          ⟨rest.result, rest.attemptsUsed + 1, rest.sleeps⟩
        else if c = 5 then
          let rest := makeRequestGo resp maxRetries r
          ⟨rest.result, rest.attemptsUsed + 1, SleepEvent.rateLimitWait :: rest.sleeps⟩
        else ⟨some d, 1, []⟩

/-- Model of `_make_request`: run the attempt loop with the full retry budget. -/
def makeRequest (resp : Nat → AttemptOutcome) (maxRetries : Nat) : RequestResult :=
  makeRequestGo resp maxRetries maxRetries

/-! ### Analyzer (`analyze.py`) -/

/-- A parsed CSV file as `csv.DictReader` sees it: the header row
(`reader.fieldnames`) and one association list of column-name/value pairs
per data row. -/
structure CsvFile where
  header : List String
  rows : List (List (String × String))

/-- Per-category tallies built by `analyze_trivia_data`. -/
structure CategoryStats where
  total_questions : Nat
  difficulties : List (String × Nat)
  sample_questions : List String
deriving DecidableEq, Repr

/-- The statistics `analyze_trivia_data` accumulates before printing:
the overall count and the per-category data, in first-seen order
(Python dict insertion order). -/
structure Stats where
  total_questions : Nat
  categories : List (String × CategoryStats)
deriving DecidableEq, Repr

/-- Increment a string-keyed counter (`Counter[difficulty] += 1`),
appending a fresh key at the end. -/
def bumpCounter (k : String) : List (String × Nat) → List (String × Nat)
  | [] => [(k, 1)]
  | (k', v) :: rest =>
    if k' = k then (k', v + 1) :: rest else (k', v) :: bumpCounter k rest

/-- Truncate a sample question: `question[:100] + "..." if len(question) > 100`. -/
def truncateSample (q : String) : String :=
  if 100 < q.length then q.take 100 ++ "..." else q

/-- Update one category's tallies with one row's difficulty and question. -/
def updateCategoryStats (difficulty question : String) (c : CategoryStats) :
    CategoryStats :=
  ⟨c.total_questions + 1, bumpCounter difficulty c.difficulties,
    if c.sample_questions.length < 3 then
      c.sample_questions ++ [truncateSample question]
    else c.sample_questions⟩

/-- Update the per-category association list for one row, with
`defaultdict` semantics: a category not yet present starts from zeros. -/
def updateCategories (category difficulty question : String) :
    List (String × CategoryStats) → List (String × CategoryStats)
  | [] => [(category, updateCategoryStats difficulty question ⟨0, [], []⟩)]
  | (k, c) :: rest =>
    if k = category then (k, updateCategoryStats difficulty question c) :: rest
    else (k, c) :: updateCategories category difficulty question rest

/-- Fold one CSV row into the running statistics (the body of the
`for row in reader` loop). A well-formed row carries every header column;
absent keys default to the empty string. -/
def addRow (acc : Stats) (row : List (String × String)) : Stats :=
  let category := (row.lookup "category").getD ""
  let difficulty := (row.lookup "difficulty").getD ""
  let question := (row.lookup "question").getD ""
  ⟨acc.total_questions + 1, updateCategories category difficulty question acc.categories⟩

/-- The whole reading loop of `analyze_trivia_data`. -/
def computeStats (rows : List (List (String × String))) : Stats :=
  rows.foldl addRow ⟨0, []⟩

/-- How a run of `analyze_trivia_data` ends: the missing-file early return,
the missing-columns early return (before any statistic is computed or
printed), or a full statistics report. -/
inductive AnalyzeResult where
  | fileNotFound
  | missingColumns (missing : List String)
  | report (stats : Stats)

/-- The `expected_columns` set literal of `analyze_trivia_data`, in the
order written there. -/
def expectedColumns : List String :=
  ["id", "category", "question", "options", "correct_answer", "difficulty"]

/-- The `fieldnames` list `_write_csv_headers` (and every append in
`_append_question_to_csv`) uses: the exact header the scraper produces. -/
def scraperFieldnames : List String :=
  ["category", "question", "options", "correct_answer", "difficulty", "type"]

/-- Model of `analyze_trivia_data`: report a missing file, else check that every
expected column occurs in the header and report the missing ones, else
compute the statistics. -/
def analyze_trivia_data (file : Option CsvFile) : AnalyzeResult :=
  match file with
  | none => .fileNotFound
  | some f =>
    let missing := expectedColumns.filter (fun c => ¬ c ∈ f.header)
    if missing = [] then .report (computeStats f.rows)
    else .missingColumns missing

/-! ### Dedup invariant -/

/-- The dedup invariant tying the persisted file to the in-memory state:
`pre` is the file contents at startup, `st.out` what this run appended.
No two persisted records share a recomputed dedup hash, and every persisted
record's hash is registered in the seen-set. -/
def GoodState (pre : List Question) (st : ScrapeState) : Prop :=
  ((pre ++ st.out).map recomputeHash).Nodup ∧
    ∀ r ∈ pre ++ st.out, recomputeHash r ∈ st.seen_hashes

lemma processQuestion_of_mem_seen (decode : String → String)
    (shuffle : List String → List String) (st : ScrapeState) (raw : RawQuestion)
    (h : questionHash (decode raw.question) (decode raw.correct_answer) ∈ st.seen_hashes) :
    processQuestion decode shuffle st raw = (none, st) := by
  simp [processQuestion, h]

lemma processQuestion_good (decode : String → String)
    (shuffle : List String → List String) (pre : List Question) (st : ScrapeState)
    (raw : RawQuestion) (h : GoodState pre st) :
    GoodState pre (processQuestion decode shuffle st raw).2 := by
  obtain ⟨hnd, hmem⟩ := h
  by_cases hs : questionHash (decode raw.question) (decode raw.correct_answer) ∈ st.seen_hashes
  · rw [processQuestion_of_mem_seen decode shuffle st raw hs]
    exact ⟨hnd, hmem⟩
  · have hstep : (processQuestion decode shuffle st raw).2 =
        ⟨insert (questionHash (decode raw.question) (decode raw.correct_answer)) st.seen_hashes,
          st.questions_written + 1,
          st.out ++ [⟨decode raw.category, decode raw.question,
            shuffle (decode raw.correct_answer :: raw.incorrect_answers.map decode),
            decode raw.correct_answer, raw.difficulty, raw.qtype,
            questionHash (decode raw.question) (decode raw.correct_answer)⟩]⟩ := by
      simp [processQuestion, hs]
    rw [hstep]
    constructor
    · rw [show pre ++ (st.out ++ [_]) = (pre ++ st.out) ++ [_] from (List.append_assoc _ _ _).symm]
      rw [List.map_append]
      rw [List.nodup_append]
      refine ⟨hnd, List.nodup_singleton _, ?_⟩
      intro x hx hx1
      simp only [List.map_cons, List.map_nil, List.mem_singleton] at hx1
      obtain ⟨r, hr, hrx⟩ := List.mem_map.mp hx
      have : recomputeHash r ∈ st.seen_hashes := hmem r hr
      rw [hrx, hx1] at this
      exact hs this
    · intro r hr
      rw [show pre ++ (st.out ++ [_]) = (pre ++ st.out) ++ [_] from (List.append_assoc _ _ _).symm]
        at hr
      rcases List.mem_append.mp hr with hr | hr
      · exact Finset.mem_insert_of_mem (hmem r hr)
      · rw [List.mem_singleton] at hr
        subst hr
        exact Finset.mem_insert_self _ _

lemma processBatch_good (decode : String → String)
    (shuffle : List String → List String) (pre : List Question) :
    ∀ (raws : List RawQuestion) (st : ScrapeState), GoodState pre st →
      GoodState pre (processBatch decode shuffle st raws).2 := by
  intro raws
  induction raws with
  | nil => intro st h; simpa [processBatch] using h
  | cons raw rest ih =>
    intro st h
    have h1 := processQuestion_good decode shuffle pre st raw h
    rcases hq : processQuestion decode shuffle st raw with ⟨o, st'⟩
    rw [hq] at h1
    cases o with
    | some q => simpa [processBatch, hq] using ih st' h1
    | none => simpa [processBatch, hq] using ih st' h1

lemma goodState_load (rows : List Question) (h : (rows.map recomputeHash).Nodup) :
    GoodState rows (loadExisting (some rows)) := by
  constructor
  · simpa [loadExisting] using h
  · intro r hr
    simp only [loadExisting, List.append_nil] at hr ⊢
    exact List.mem_toFinset.mpr (List.mem_map_of_mem recomputeHash hr)

lemma goodState_initial : GoodState [] initialState := by
  constructor
  · simp [initialState]
  · intro r hr
    simp [initialState] at hr

/-- C1: starting from any existing file whose records have pairwise-distinct
dedup hashes (as every file written by the scraper does), processing any
sequence of raw questions through `_process_question` leaves the full
persisted file (old rows plus the records appended this run) with
pairwise-distinct dedup hashes, where the hash is the lower-cased trimmed
`question:correct_answer` of the decoded fields; moreover a question whose
hash is already in the in-memory seen-set is discarded and the state (hence
the file) is left unchanged. -/
theorem no_two_persisted_records_share_hash
    (decode : String → String) (shuffle : List String → List String)
    (rows : List Question) (raws : List RawQuestion)
    (hrows : (rows.map recomputeHash).Nodup) :
    (((rows ++ (processRaws decode shuffle (loadExisting (some rows)) raws).out).map
        recomputeHash).Nodup)
    ∧ ∀ (st : ScrapeState) (raw : RawQuestion),
        questionHash (decode raw.question) (decode raw.correct_answer) ∈ st.seen_hashes →
        processQuestion decode shuffle st raw = (none, st) := by
  constructor
  · exact (processBatch_good decode shuffle rows raws (loadExisting (some rows))
      (goodState_load rows hrows)).1
  · exact fun st raw h => processQuestion_of_mem_seen decode shuffle st raw h

/-- Witness for C1 at a concrete input: an empty preexisting file and a batch
that repeats the same raw question twice still yields a file with no
duplicate hashes. -/
theorem no_two_persisted_records_share_hash_witness :
    ((([] ++ (processRaws (fun s => s) (fun l => l) (loadExisting (some []))
        [⟨"Cat", "Q1", "A1", ["B", "C"], "easy", "multiple"⟩,
         ⟨"Cat", "Q1", "A1", ["B", "C"], "easy", "multiple"⟩]).out).map
      recomputeHash).Nodup) :=
  (no_two_persisted_records_share_hash (fun s => s) (fun l => l) []
    [⟨"Cat", "Q1", "A1", ["B", "C"], "easy", "multiple"⟩,
     ⟨"Cat", "Q1", "A1", ["B", "C"], "easy", "multiple"⟩] (by simp)).1

/-- C2: preloading a file holding exactly the records a writer run appended
(k of them) reconstructs a seen-set of exactly k hashes and a written-count
of exactly k; preloading a missing file yields the empty seen-set and a
written-count of zero. -/
theorem preload_reconstructs_state
    (decode : String → String) (shuffle : List String → List String)
    (raws : List RawQuestion) :
    ((loadExisting (some (processRaws decode shuffle initialState raws).out)).seen_hashes.card
        = (processRaws decode shuffle initialState raws).out.length
      ∧ (loadExisting (some (processRaws decode shuffle initialState raws).out)).questions_written
        = (processRaws decode shuffle initialState raws).out.length)
    ∧ (loadExisting none).seen_hashes = ∅
    ∧ (loadExisting none).questions_written = 0 := by
  refine ⟨⟨?_, rfl⟩, rfl, rfl⟩
  have hnd : ((processRaws decode shuffle initialState raws).out.map recomputeHash).Nodup := by
    have := (processBatch_good decode shuffle [] raws initialState goodState_initial).1
    simpa [processRaws] using this
  simp [loadExisting, List.toFinset_card_of_nodup hnd]

lemma processQuestion_none_eq (decode : String → String)
    (shuffle : List String → List String) (st st' : ScrapeState) (raw : RawQuestion)
    (h : processQuestion decode shuffle st raw = (none, st')) : st' = st := by
  simp only [processQuestion] at h
  split at h
  · exact (Prod.mk.injEq _ _ _ _ ▸ h).2.symm
  · simp at h

lemma processQuestion_some_written (decode : String → String)
    (shuffle : List String → List String) (st st' : ScrapeState) (raw : RawQuestion)
    (q : Question) (h : processQuestion decode shuffle st raw = (some q, st')) :
    st'.questions_written = st.questions_written + 1 := by
  simp only [processQuestion] at h
  split at h
  · simp at h
  · obtain ⟨-, h2⟩ := Prod.mk.injEq _ _ _ _ ▸ h
    rw [← h2]

lemma processBatch_written (decode : String → String)
    (shuffle : List String → List String) :
    ∀ (raws : List RawQuestion) (st : ScrapeState),
      (processBatch decode shuffle st raws).2.questions_written
        = st.questions_written + (processBatch decode shuffle st raws).1.length := by
  intro raws
  induction raws with
  | nil => intro st; simp [processBatch]
  | cons raw rest ih =>
    intro st
    rcases hq : processQuestion decode shuffle st raw with ⟨o, st'⟩
    cases o with
    | some q =>
      have hw := processQuestion_some_written decode shuffle st st' raw q hq
      simp only [processBatch, hq]
      rw [ih st', hw]
      simp [Nat.add_assoc, Nat.add_comm 1]
    | none =>
      have hst := processQuestion_none_eq decode shuffle st st' raw hq
      subst hst
      simpa [processBatch, hq] using ih st'

lemma processBatch_nil_state (decode : String → String)
    (shuffle : List String → List String) :
    ∀ (raws : List RawQuestion) (st : ScrapeState),
      (processBatch decode shuffle st raws).1 = [] →
      (processBatch decode shuffle st raws).2 = st := by
  intro raws
  induction raws with
  | nil => intro st _; simp [processBatch]
  | cons raw rest ih =>
    intro st h
    rcases hq : processQuestion decode shuffle st raw with ⟨o, st'⟩
    cases o with
    | some q => simp [processBatch, hq] at h
    | none =>
      have hst := processQuestion_none_eq decode shuffle st st' raw hq
      subst hst
      simp only [processBatch, hq] at h ⊢
      exact ih st' h

lemma fetchQuestions_written (decode : String → String)
    (shuffle : List String → List String) (st : ScrapeState)
    (resp : Option (List RawQuestion)) :
    (fetchQuestions decode shuffle st resp).2.questions_written
      = st.questions_written + (fetchQuestions decode shuffle st resp).1.length := by
  cases resp with
  | none => simp [fetchQuestions]
  | some rs => simpa [fetchQuestions] using processBatch_written decode shuffle rs st

lemma fetchQuestions_nil_state (decode : String → String)
    (shuffle : List String → List String) (st : ScrapeState)
    (resp : Option (List RawQuestion))
    (h : (fetchQuestions decode shuffle st resp).1 = []) :
    (fetchQuestions decode shuffle st resp).2 = st := by
  cases resp with
  | none => simp [fetchQuestions]
  | some rs =>
    simp only [fetchQuestions] at h ⊢
    exact processBatch_nil_state decode shuffle rs st h

/-- C3: when the preloaded written-count N already meets the target T
(T ≤ N), `scrape` performs zero question requests and zero session-token
requests, appends nothing (the state is returned unchanged), and returns 0
new questions. -/
theorem scrape_target_reached_is_noop
    (decode : String → String) (shuffle : List String → List String)
    (resps : Nat → Option (List RawQuestion)) (target qpr fuel : Nat)
    (st : ScrapeState) (h : target ≤ st.questions_written) :
    scrape decode shuffle resps target qpr fuel st = some ⟨0, 0, 0, st⟩ := by
  simp [scrape, h]

/-- Witness for C3: a state with one question already written and a target of
one yields an immediate no-request return. -/
theorem scrape_target_reached_is_noop_witness :
    (1 ≤ (⟨∅, 1, []⟩ : ScrapeState).questions_written)
    ∧ scrape (fun s => s) (fun l => l) (fun _ => none) 1 50 5 ⟨∅, 1, []⟩
        = some ⟨0, 0, 0, ⟨∅, 1, []⟩⟩ :=
  ⟨by decide,
   scrape_target_reached_is_noop (fun s => s) (fun l => l) (fun _ => none) 1 50 5
     ⟨∅, 1, []⟩ (by decide)⟩

/-- C4: (a) whenever the written-count is still below the target and the
next fetched batch yields zero newly-accepted records, the loop makes
exactly that one request and stops, with the state unchanged; (b) the loop
terminates (the fuel bound `target - written + 1` is never exhausted) for
every response sequence, because each iteration either accepts at least one
record or hits the zero-new early stop. Both parts assume a positive
`questions_per_request` (the code's default is 50). -/
theorem scrape_loop_stops_on_zero_new_batch
    (decode : String → String) (shuffle : List String → List String)
    (resps : Nat → Option (List RawQuestion)) (target qpr : Nat) (hq : 0 < qpr) :
    (∀ (fuel i : Nat) (st : ScrapeState), st.questions_written < target →
        (fetchQuestions decode shuffle st (resps i)).1.length = 0 →
        scrapeLoop decode shuffle resps target qpr (fuel + 1) i st = some (st, 1))
    ∧ (∀ (fuel i : Nat) (st : ScrapeState), target - st.questions_written < fuel →
        scrapeLoop decode shuffle resps target qpr fuel i st ≠ none) := by
  constructor
  · intro fuel i st hlt hzero
    have hnot : ¬ target ≤ st.questions_written := not_le.mpr hlt
    have hnil : (fetchQuestions decode shuffle st (resps i)).1 = [] :=
      List.length_eq_zero.mp hzero
    have hst := fetchQuestions_nil_state decode shuffle st (resps i) hnil
    simp only [scrapeLoop, if_neg hnot]
    rw [if_pos ⟨by rw [hzero]; omega, hzero⟩, hst]
  · intro fuel
    induction fuel with
    | zero => intro i st h; omega
    | succ f ih =>
      intro i st h
      by_cases hle : target ≤ st.questions_written
      · simp [scrapeLoop, if_pos hle]
      · have hw := fetchQuestions_written decode shuffle st (resps i)
        by_cases hbr : (fetchQuestions decode shuffle st (resps i)).1.length
              < min (min qpr (target - st.questions_written)) 50
            ∧ (fetchQuestions decode shuffle st (resps i)).1.length = 0
        · simp only [scrapeLoop, if_neg hle]
          rw [if_pos hbr]
          simp
        · have hlen : (fetchQuestions decode shuffle st (resps i)).1.length ≠ 0 := by
            intro h0
            exact hbr ⟨by rw [h0]; omega, h0⟩
          have hnn := ih (i + 1) (fetchQuestions decode shuffle st (resps i)).2 (by omega)
          simp only [scrapeLoop, if_neg hle, if_neg hbr]
          rcases hsl : scrapeLoop decode shuffle resps target qpr f (i + 1)
              (fetchQuestions decode shuffle st (resps i)).2 with _ | ⟨stf, reqs⟩
          · exact absurd hsl hnn
          · simp

/-- Witness for C4: with a server that always answers with an empty batch,
the loop written-count 0 and target 1 stops after exactly one request (part
a) and never exhausts fuel 2 (part b). -/
theorem scrape_loop_stops_on_zero_new_batch_witness :
    scrapeLoop (fun s => s) (fun l => l) (fun _ => some []) 1 50 1 0 initialState
        = some (initialState, 1)
    ∧ scrapeLoop (fun s => s) (fun l => l) (fun _ => some []) 1 50 2 0 initialState ≠ none :=
  ⟨(scrape_loop_stops_on_zero_new_batch (fun s => s) (fun l => l) (fun _ => some [])
      1 50 (by decide)).1 0 0 initialState (by decide) (by decide),
   (scrape_loop_stops_on_zero_new_batch (fun s => s) (fun l => l) (fun _ => some [])
      1 50 (by decide)).2 2 0 initialState (by decide)⟩

lemma processQuestion_some_eq (decode : String → String)
    (shuffle : List String → List String) (st st' : ScrapeState) (raw : RawQuestion)
    (q : Question) (h : processQuestion decode shuffle st raw = (some q, st')) :
    q = ⟨decode raw.category, decode raw.question,
      shuffle (decode raw.correct_answer :: raw.incorrect_answers.map decode),
      decode raw.correct_answer, raw.difficulty, raw.qtype,
      questionHash (decode raw.question) (decode raw.correct_answer)⟩ := by
  simp only [processQuestion] at h
  split at h
  · simp at h
  · obtain ⟨h1, -⟩ := Prod.mk.injEq _ _ _ _ ▸ h
    exact (Option.some.inj h1).symm

/-- Counterexample to C5 as stated: when the raw `incorrect_answers` list
itself contains the correct answer (here `D` among `[D, B, C]`), the
persisted options list contains the correct answer twice, not exactly once. -/
theorem options_contain_correct_twice_cex :
    ((processQuestion (fun s => s) (fun l => l) initialState
        ⟨"Cat", "Q", "D", ["D", "B", "C"], "easy", "multiple"⟩).1.map
      (fun r => r.options.count r.correct_answer)) = some 2
    ∧ ((processQuestion (fun s => s) (fun l => l) initialState
        ⟨"Cat", "Q", "D", ["D", "B", "C"], "easy", "multiple"⟩).1.map
      (fun r => r.options.count r.correct_answer)) ≠ some 1 := by
  constructor
  · decide
  · decide

/-- C5 (amended): for every persisted record, the options list contains the
correct answer exactly `1 + m` times, where `m` is the number of occurrences
of the decoded correct answer in the decoded `incorrect_answers` list — so
exactly once precisely when the decoded incorrect answers do not themselves
contain the correct answer. The code never removes duplicates between
`correct_answer` and `incorrect_answers`. -/
theorem options_count_correct_answer
    (decode : String → String) (shuffle : List String → List String)
    (hperm : ∀ l, List.Perm (shuffle l) l) (st st' : ScrapeState)
    (raw : RawQuestion) (q : Question)
    (h : processQuestion decode shuffle st raw = (some q, st')) :
    q.options.count q.correct_answer
      = 1 + (raw.incorrect_answers.map decode).count (decode raw.correct_answer) := by
  have hq := processQuestion_some_eq decode shuffle st st' raw q h
  subst hq
  simp only
  rw [List.Perm.count_eq (hperm _), List.count_cons_self]
  exact Nat.add_comm _ 1

/-- Witness for C5 (amended) at a concrete accepted question with no
duplicate among the answers: the correct answer occurs `1 + 0` times. -/
theorem options_count_correct_answer_witness :
    (Question.mk "c" "q" ["d", "x", "y"] "d" "e" "m" "q:d").options.count
        (Question.mk "c" "q" ["d", "x", "y"] "d" "e" "m" "q:d").correct_answer
      = 1 + ((["x", "y"].map (fun s => s)).count ((fun s => s) "d")) :=
  options_count_correct_answer (fun s => s) (fun l => l) (fun l => List.Perm.refl l)
    initialState ⟨{"q:d"}, 1, [⟨"c", "q", ["d", "x", "y"], "d", "e", "m", "q:d"⟩]⟩
    ⟨"c", "q", "d", ["x", "y"], "e", "m"⟩
    ⟨"c", "q", ["d", "x", "y"], "d", "e", "m", "q:d"⟩ (by decide)

/-- C6: for a raw question with incorrect answers `[A, B, C]` and correct
answer `D`, any persisted record's options list has exactly the members
`{decode D, decode A, decode B, decode C}`, for every shuffle outcome
(the shuffle permutes the list, so membership is preserved). -/
theorem persisted_options_set
    (decode : String → String) (shuffle : List String → List String)
    (hperm : ∀ l, List.Perm (shuffle l) l) (st st' : ScrapeState)
    (cat qtext A B C D diff qt : String) (q : Question)
    (h : processQuestion decode shuffle st ⟨cat, qtext, D, [A, B, C], diff, qt⟩
      = (some q, st')) (x : String) :
    x ∈ q.options ↔ (x = decode D ∨ x = decode A ∨ x = decode B ∨ x = decode C) := by
  have hq := processQuestion_some_eq decode shuffle st st' _ q h
  subst hq
  simp only
  rw [List.Perm.mem_iff (hperm _)]
  simp

/-- Witness for C6 at a concrete accepted question and a concrete member. -/
theorem persisted_options_set_witness :
    ("a" ∈ (Question.mk "c" "q" ["d", "a", "b", "x"] "d" "e" "m" "q:d").options)
      ↔ ("a" = (fun s => s) "d" ∨ "a" = (fun s => s) "a" ∨ "a" = (fun s => s) "b"
          ∨ "a" = (fun s => s) "x") :=
  persisted_options_set (fun s => s) (fun l => l) (fun l => List.Perm.refl l)
    initialState ⟨{"q:d"}, 1, [⟨"c", "q", ["d", "a", "b", "x"], "d", "e", "m", "q:d"⟩]⟩
    "c" "q" "a" "b" "x" "d" "e" "m"
    ⟨"c", "q", ["d", "a", "b", "x"], "d", "e", "m", "q:d"⟩ (by decide) "a"

lemma makeRequestGo_malformed_after_transport (resp : Nat → AttemptOutcome)
    (maxRetries : Nat) :
    ∀ (r a k : Nat), a + r = maxRetries → k < r →
      resp (a + k) = .malformed →
      (∀ j, j < k → resp (a + j) = .transportError) →
      makeRequestGo resp maxRetries r
        = ⟨none, k + 1, (List.range k).map (fun j => SleepEvent.backoff (2 ^ (a + j)))⟩ := by
  intro r
  induction r with
  | zero => intro a k _ hk; omega
  | succ r' ih =>
    intro a k ha hk hm ht
    have hatt : maxRetries - (r' + 1) = a := by omega
    cases k with
    | zero =>
      have hm0 : resp a = .malformed := by simpa using hm
      simp [makeRequestGo, hatt, hm0]
    | succ k' =>
      have ht0 : resp a = .transportError := by simpa using ht 0 (by omega)
      have hrest := ih (a + 1) k' (by omega) (by omega)
        (by rw [show a + 1 + k' = a + (k' + 1) from by omega]; exact hm)
        (by intro j hj
            rw [show a + 1 + j = a + (j + 1) from by omega]
            exact ht (j + 1) (by omega))
      have hsl : maxRetries - (r' + 1) < maxRetries - 1 := by omega
      have hlist : SleepEvent.backoff (2 ^ a)
            :: (List.range k').map (fun j => SleepEvent.backoff (2 ^ (a + 1 + j)))
          = (List.range (k' + 1)).map (fun j => SleepEvent.backoff (2 ^ (a + j))) := by
        rw [List.range_succ_eq_map, List.map_cons, List.map_map]
        refine congrArg₂ List.cons (by rw [Nat.add_zero]) ?_
        have hfun : ((fun j => SleepEvent.backoff (2 ^ (a + j))) ∘ Nat.succ)
            = fun j => SleepEvent.backoff (2 ^ (a + 1 + j)) := by
          funext j
          simp only [Function.comp_apply]
          rw [show a + Nat.succ j = a + 1 + j from by omega]
        rw [hfun]
      simp only [makeRequestGo, ht0, hrest, hatt, if_pos (hatt ▸ hsl)]
      rw [← hlist]
      rfl

/-- Counterexample to C7 as stated: an undecodable payload is NOT treated
like a transport failure. With three retries available, a malformed first
response followed by a successful second response yields no data after a
single attempt and no backoff sleep, while a transport failure followed by
the same successful response is retried (two attempts, one backoff sleep)
and yields the payload. -/
theorem malformed_not_like_transport_cex :
    makeRequest (fun n => if n = 0 then AttemptOutcome.malformed
      else .payload ⟨some 0, some []⟩) 3 = ⟨none, 1, []⟩
    ∧ makeRequest (fun n => if n = 0 then AttemptOutcome.transportError
      else .payload ⟨some 0, some []⟩) 3
        = ⟨some ⟨some 0, some []⟩, 2, [SleepEvent.backoff 1]⟩ := by
  exact ⟨by decide, by decide⟩

/-- C7 (amended): in `_make_request`, an undecodable (malformed JSON)
payload is NOT retried: the call returns a no-data result immediately on the
attempt that failed to decode, consuming no further retry budget and
sleeping no backoff for it. Only transport failures are retried with
exponential backoff of `2^attempt` seconds: if the first k attempts are
transport failures and attempt k yields a malformed payload, the call
returns no data after exactly k+1 attempts with backoff sleeps
`2^0, ..., 2^(k-1)`. -/
theorem malformed_payload_not_retried (resp : Nat → AttemptOutcome)
    (maxRetries k : Nat) (hk : k < maxRetries) (hm : resp k = .malformed)
    (ht : ∀ j, j < k → resp j = .transportError) :
    makeRequest resp maxRetries
      = ⟨none, k + 1, (List.range k).map (fun j => SleepEvent.backoff (2 ^ j))⟩ := by
  have h := makeRequestGo_malformed_after_transport resp maxRetries maxRetries 0 k
    (by omega) hk (by simpa using hm) (by intro j hj; simpa using ht j hj)
  simpa [makeRequest] using h

/-- Witness for C7 (amended): one transport failure then a malformed payload,
with a budget of three attempts, gives up after two attempts and one
backoff sleep. -/
theorem malformed_payload_not_retried_witness :
    makeRequest (fun n => if n = 0 then AttemptOutcome.transportError
        else .malformed) 3
      = ⟨none, 2, [SleepEvent.backoff 1]⟩ :=
  malformed_payload_not_retried (fun n => if n = 0 then AttemptOutcome.transportError
      else .malformed) 3 1 (by omega) (by decide)
    (fun j hj => by
      have hj0 : j = 0 := by omega
      subst hj0
      decide)

/-- C10: a decoded payload whose structured `response_code` lies outside the
documented set {0,1,2,3,4,5} (for example 6) is returned to the caller
unchanged on the attempt that received it, exactly as a success (code 0)
payload would be: the code value falls through every branch of the dispatch
chain to the final `return data`. -/
theorem undocumented_code_returned_as_success (resp : Nat → AttemptOutcome)
    (maxRetries : Nat) (d : ApiData) (c : Int) (hmr : 0 < maxRetries)
    (h0 : resp 0 = .payload d) (hc : d.response_code = some c)
    (hc0 : c ≠ 0) (hc1 : c ≠ 1) (hc2 : c ≠ 2) (hc3 : c ≠ 3) (hc4 : c ≠ 4)
    (hc5 : c ≠ 5) :
    makeRequest resp maxRetries = ⟨some d, 1, []⟩ := by
  obtain ⟨r, rfl⟩ : ∃ r, maxRetries = r + 1 := ⟨maxRetries - 1, by omega⟩
  have hatt : r + 1 - (r + 1) = 0 := by omega
  simp [makeRequest, makeRequestGo, hatt, h0, hc, hc0, hc1, hc2, hc3, hc4, hc5]

/-- Witness for C10: a payload with `response_code = 6` is handed back to
the caller unchanged after one attempt. -/
theorem undocumented_code_returned_as_success_witness :
    makeRequest (fun _ => AttemptOutcome.payload ⟨some 6, some []⟩) 3
      = ⟨some ⟨some 6, some []⟩, 1, []⟩ :=
  undocumented_code_returned_as_success (fun _ => AttemptOutcome.payload ⟨some 6, some []⟩)
    3 ⟨some 6, some []⟩ 6 (by omega) rfl rfl
    (by decide) (by decide) (by decide) (by decide) (by decide) (by decide)

/-- C8: when the analyzer is given an existing file whose header lacks the
`difficulty` column, it takes the missing-column early return, the reported
missing set names `difficulty`, and no statistics report is produced. -/
theorem analyzer_missing_difficulty_column (f : CsvFile)
    (h : ¬ "difficulty" ∈ f.header) :
    (∃ m, analyze_trivia_data (some f) = .missingColumns m ∧ "difficulty" ∈ m)
    ∧ ∀ s, analyze_trivia_data (some f) ≠ .report s := by
  have hmem : "difficulty" ∈ expectedColumns.filter (fun c => ¬ c ∈ f.header) := by
    rw [List.mem_filter]
    refine ⟨by simp [expectedColumns], ?_⟩
    simpa using h
  have hne : expectedColumns.filter (fun c => ¬ c ∈ f.header) ≠ [] := by
    intro h0
    rw [h0] at hmem
    simp at hmem
  have hresult : analyze_trivia_data (some f)
      = .missingColumns (expectedColumns.filter (fun c => ¬ c ∈ f.header)) := by
    simp only [analyze_trivia_data]
    rw [if_neg hne]
  refine ⟨⟨expectedColumns.filter (fun c => ¬ c ∈ f.header), hresult, hmem⟩, ?_⟩
  intro s hs
  rw [hresult] at hs
  exact AnalyzeResult.noConfusion hs

/-- Witness for C8: a file whose header has only `category` and `question`. -/
theorem analyzer_missing_difficulty_column_witness :
    (∃ m, analyze_trivia_data (some ⟨["category", "question"], []⟩)
        = .missingColumns m ∧ "difficulty" ∈ m)
    ∧ ∀ s, analyze_trivia_data (some ⟨["category", "question"], []⟩) ≠ .report s :=
  analyzer_missing_difficulty_column ⟨["category", "question"], []⟩ (by decide)

/-- C9: the header the scraper writes (`category`, `question`, `options`,
`correct_answer`, `difficulty`, `type`) never satisfies the analyzer's
required-column check, because the analyzer's expected set contains `id`,
which the writer never emits: for every file with the scraper's header the
analyzer reports exactly `id` missing and produces no statistics. -/
theorem analyzer_rejects_scraper_header (rows : List (List (String × String))) :
    analyze_trivia_data (some ⟨scraperFieldnames, rows⟩) = .missingColumns ["id"]
    ∧ ∀ s, analyze_trivia_data (some ⟨scraperFieldnames, rows⟩) ≠ .report s := by
  have h : analyze_trivia_data (some ⟨scraperFieldnames, rows⟩)
      = .missingColumns ["id"] := rfl
  exact ⟨h, fun s hs => AnalyzeResult.noConfusion (h ▸ hs)⟩

end OpenTDB
